import Mathlib

/-!
Shallow embedding of the `hophacks-2025` frontend (frontend_2) in Lean 4.

The repository is a React/TypeScript frontend talking to an HTTP backend.
We embed the TypeScript data model (frontend_2/src/types/index.ts), the
API service layer (frontend_2/src/services/api.ts), and the rendering /
state-updating logic of the components the claims are about
(TopicForm.tsx, VideoPlayer.tsx, ThebeNotebook.tsx, NotebookViewer.tsx,
LatexRenderer.tsx).

JavaScript runtime values crossing the wire are modelled by a small JSON
value type `Json`; reading a property of a JS object is modelled by field
lookup on its JSON encoding.  Network effects are modelled by passing the
outcome of the HTTP call explicitly as an `Except`/sum-typed argument.
-/

namespace HopHacks

/-- JSON / JavaScript runtime values (objects as ordered field lists). -/
inductive Json where
  | str (s : String)
  | num (n : Int)
  | bool (b : Bool)
  | null
  | arr (elems : List Json)
  | obj (fields : List (String × Json))

/-- JS property read `o.k`: `some v` when the object has field `k`,
`none` models `undefined` (also for reads on non-objects). -/
def Json.getField : Json → String → Option Json
  | .obj fields, k => (fields.find? (fun p => p.1 = k)).map (·.2)
  | _, _ => none

/-- The field names of a JSON object, in order (`[]` for non-objects). -/
def Json.keys : Json → List String
  | .obj fields => fields.map (·.1)
  | _ => []

/-- `interface LearnRequest` from frontend_2/src/types/index.ts. -/
structure LearnRequest where
  topic : String
  user_preferences : String
  deriving DecidableEq, Repr

/-- `interface LearningBlock` from frontend_2/src/types/index.ts
(`visualization_path: string | null`). -/
structure LearningBlock where
  id : Int
  topic : String
  text_content : String
  visualization_path : Option String
  deriving DecidableEq, Repr

/-- `interface LearnResponse` from frontend_2/src/types/index.ts. -/
structure LearnResponse where
  learning_blocks : List LearningBlock
  playground_path : String
  main_topic : String
  components : List String
  timestamp : String
  deriving DecidableEq, Repr

/-- The JS object carried by a `LearnRequest` value: exactly the declared
fields, in declaration order. -/
def encodeLearnRequest (r : LearnRequest) : Json :=
  .obj [("topic", .str r.topic), ("user_preferences", .str r.user_preferences)]

/-- The JS object carried by a `LearningBlock` value. -/
def encodeLearningBlock (b : LearningBlock) : Json :=
  .obj [("id", .num b.id),
        ("topic", .str b.topic),
        ("text_content", .str b.text_content),
        ("visualization_path",
          match b.visualization_path with
          | some s => .str s
          | none => .null)]

/-- The JS object carried by a `LearnResponse` value: exactly the declared
fields, in declaration order. -/
def encodeLearnResponse (r : LearnResponse) : Json :=
  .obj [("learning_blocks", .arr (r.learning_blocks.map encodeLearningBlock)),
        ("playground_path", .str r.playground_path),
        ("main_topic", .str r.main_topic),
        ("components", .arr (r.components.map .str)),
        ("timestamp", .str r.timestamp)]

/-- `const API_BASE_URL` in frontend_2/src/services/api.ts. -/
def API_BASE_URL : String := "https://hophacks-learnwiz-backend.sliplane.app"

/-- Causes on which an axios promise rejects (network failure, timeout, or
an HTTP completion whose status axios's default `validateStatus` refuses). -/
inductive NetError where
  | httpStatus (status : Nat)
  | network
  | timeout
  deriving DecidableEq, Repr

/-- `learningAPI.generateLearningModule` (api.ts): the `POST /learn` outcome
is passed explicitly; any rejection is caught and rethrown as the fixed
user-facing message. -/
def generateLearningModule (_req : LearnRequest)
    (net : Except NetError LearnResponse) : Except String LearnResponse :=
  match net with
  | .ok resp => .ok resp
  | .error _ => .error "Failed to generate learning module. Please try again."

/-- The request body `generateLearningModule` posts: the `request` object
itself. -/
def learnRequestBody (req : LearnRequest) : Json :=
  encodeLearnRequest req

/-- Outcome of the raw HTTP exchange underlying `GET /health`:
either the server completes the response with some status, or the
request fails (network error / timeout). -/
inductive HttpOutcome where
  | completed (status : Nat)
  | failed
  deriving DecidableEq, Repr

/-- axios's default `validateStatus`: resolve iff `200 <= status < 300`. -/
def axiosResolves (status : Nat) : Bool :=
  decide (200 ≤ status ∧ status < 300)

/-- `learningAPI.checkHealth` (api.ts): `api.get('/health')` resolves only
for statuses accepted by `validateStatus`, in which case the function
returns `response.status === 200`; every rejection is caught and yields
`false`. -/
def checkHealth (o : HttpOutcome) : Bool :=
  match o with
  | .completed s => if axiosResolves s then s == 200 else false
  | .failed => false

/-- `learningAPI.getVisualizationUrl` (api.ts). -/
def getVisualizationUrl (visualizationPath : String) : String :=
  API_BASE_URL ++ "/visualization/" ++ visualizationPath

/-- `learningAPI.getNotebookUrl` (api.ts). -/
def getNotebookUrl (filename : String) : String :=
  API_BASE_URL ++ "/notebook/" ++ filename

/-! ### TopicForm.tsx: the submit handler -/

/-- The form's local state in `TopicForm` (`topic`, `userPreferences`,
`selectedPreferences` `useState` hooks). -/
structure FormState where
  topic : String
  userPreferences : String
  selectedPreferences : List String
  deriving DecidableEq, Repr

/-- The slice of `LearningContext` state touched by `handleSubmit`
(`learningData`, `isLoading`, `error`). -/
structure AppState where
  learningData : Option LearnResponse
  isLoading : Bool
  error : Option String
  deriving DecidableEq, Repr

/-- Model of `String.prototype.trim()`: strip leading and trailing
whitespace (structural recursion, so concrete instances compute). -/
def jsTrim (s : String) : String :=
  String.mk
    (((s.toList.dropWhile Char.isWhitespace).reverse.dropWhile
        Char.isWhitespace).reverse)

/-- The `user_preferences` value built inside `handleSubmit`:
chips joined by `', '` when at least one chip is selected, otherwise the
free-text preferences field. -/
def buildPreferences (fs : FormState) : String :=
  if fs.selectedPreferences.length > 0 then
    String.intercalate ", " fs.selectedPreferences
  else
    fs.userPreferences

/-- `handleSubmit` in TopicForm.tsx, as a transformer of the context state.
Returns the new state together with the `/learn` request issued
(`none` when the handler returned before calling the API).
A blank topic (`!topic.trim()`) short-circuits with a validation error;
otherwise the API call's outcome `net` is consumed: on success the
response is stored, on failure the thrown message is stored as the
user-facing error and `learningData` is not written. -/
def handleSubmit (fs : FormState) (st : AppState)
    (net : Except NetError LearnResponse) : AppState × Option LearnRequest :=
  if jsTrim fs.topic = "" then
    ({ st with error := some "Please enter a topic" }, none)
  else
    let req : LearnRequest := ⟨jsTrim fs.topic, buildPreferences fs⟩
    match generateLearningModule req net with
    | .ok resp =>
        ({ st with learningData := some resp, error := none, isLoading := false },
         some req)
    | .error msg =>
        ({ st with error := some msg, isLoading := false }, some req)

/-! ### VideoPlayer.tsx -/

/-- JS truthiness of a `string | null` value: `null` and `''` are falsy. -/
def jsFalsyStr (v : Option String) : Bool :=
  match v with
  | none => true
  | some s => s = ""

/-- What `VideoPlayer` renders: the "No visualization available" placeholder
card, the click-to-play canvas, or the `<video>` element with its `src`. -/
inductive VideoView where
  | noVisualization
  | clickToPlay (title : String)
  | videoElem (src : String) (title : String)
  deriving DecidableEq, Repr

/-- The render function of `VideoPlayer` as a function of its props and its
`isPlaying` state: `if (!videoPath)` returns the placeholder; otherwise the
click-to-play canvas or, once playing, a `<video>` whose `src` is
`learningAPI.getVisualizationUrl(videoPath)`. -/
def renderVideoPlayer (videoPath : Option String) (title : String)
    (isPlaying : Bool) : VideoView :=
  if jsFalsyStr videoPath then
    .noVisualization
  else
    match videoPath with
    | none => .noVisualization
    | some p =>
        if isPlaying then .videoElem (getVisualizationUrl p) title
        else .clickToPlay title

/-! ### ThebeNotebook.tsx: `renderNotebookContent` -/

/-- JS truthiness of an arbitrary (possibly `undefined`) value, as used by
the `!data?.playground` check: `undefined`, `null`, `''`, `0` and `false`
are falsy. -/
def jsFalsy (v : Option Json) : Bool :=
  match v with
  | none => true
  | some (.str s) => s = ""
  | some (.num n) => n = 0
  | some (.bool b) => !b
  | some .null => true
  | some (.arr _) => false
  | some (.obj _) => false

/-- `String(x)` coercion used implicitly by `Array.prototype.join('')`
(with `null`/`undefined` rendered as the empty string, per `join`). -/
def jsJoinStr : Json → String
  | .str s => s
  | .num n => toString n
  | .bool b => if b then "true" else "false"
  | .null => ""
  | .arr _ => ""
  | .obj _ => "[object Object]"

/-- `Array.isArray(cell.source) ? cell.source.join('') : cell.source || ''`
from `renderNotebookContent`. -/
def cellSourceText (cell : Json) : String :=
  match cell.getField "source" with
  | some (.arr elems) => String.join (elems.map jsJoinStr)
  | some v => if jsFalsy (some v) then "" else jsJoinStr v
  | none => ""

/-- One rendered notebook cell in `ThebeNotebook`: an executable code cell,
a monospace markdown box, or `null` (cells of any other `cell_type`). -/
inductive ThebeCellView where
  | codeCellView (content : String)
  | markdownView (content : String)
  | nullView
  deriving DecidableEq, Repr

/-- The value `renderNotebookContent` returns: the
"No playground content available" info alert, the
"No notebook cells available" info alert, the parse-error alert, or the
list of rendered cells. -/
inductive ThebeRender where
  | noPlaygroundFallback
  | noCellsFallback
  | parseErrorFallback
  | cellList (cells : List ThebeCellView)
  deriving DecidableEq, Repr

/-- The per-cell rendering inside `renderNotebookContent`:
`cell.cell_type === 'code'` gives an executable `<pre>`,
`cell.cell_type === 'markdown'` gives the monospace box, anything else
renders `null`. -/
def renderThebeCell (cell : Json) : ThebeCellView :=
  match cell.getField "cell_type" with
  | some (.str "code") => .codeCellView (cellSourceText cell)
  | some (.str "markdown") => .markdownView (cellSourceText cell)
  | _ => .nullView

/-- `ThebeNotebook.renderNotebookContent`, as a function of the JS object
the component received as its `data` prop (typed `LearnResponse | null` in
the source).  The read `data?.playground` is JS property lookup; `parse`
models the `JSON.parse` builtin applied in the `typeof === 'string'`
branch (`none` standing for a thrown `SyntaxError`).  The cell array is
`playgroundData?.cells || []`; cells render only when that value is a
non-empty array. -/
def renderNotebookContent (parse : String → Option Json)
    (data : Option Json) : ThebeRender :=
  match data with
  | none => .noPlaygroundFallback
  | some d =>
    match d.getField "playground" with
    | none => .noPlaygroundFallback
    | some pg =>
      if jsFalsy (some pg) then .noPlaygroundFallback
      else
        let parsed : Option Json :=
          match pg with
          | .str s => parse s
          | v => some v
        match parsed with
        | none => .parseErrorFallback
        | some pd =>
          match pd.getField "cells" with
          | some (.arr (c :: cs)) => .cellList ((c :: cs).map renderThebeCell)
          | _ => .noCellsFallback

/-! ### NotebookViewer.tsx -/

/-- `interface NotebookCell` in NotebookViewer.tsx.  `cell_type` is kept as
a runtime string (the render dispatch compares it with `'markdown'`);
`source` is the string array joined for display. -/
structure NVCell where
  cell_type : String
  source : List String
  execution_count : Option Nat
  deriving DecidableEq, Repr

/-- One rendered cell of `NotebookViewer`: a markdown box (receiving
`cell.source.join('')`) or an editable code cell. -/
inductive NVCellView where
  | markdownBox (content : String)
  | codeCell (originalCode : String)
  deriving DecidableEq, Repr

/-- The dispatch in `NotebookViewer`'s main render:
`cell.cell_type === 'markdown'` renders the markdown box, every other
cell type renders `renderCodeCell`. -/
def renderNVCell (c : NVCell) : NVCellView :=
  if c.cell_type = "markdown" then .markdownBox (String.join c.source)
  else .codeCell (String.join c.source)

/-- Helper for `renderNotebookCells`: renders the remaining cells, where
`total` is `notebookData.cells.length` and `i` the index of the first
remaining cell; the boolean is `index < notebookData.cells.length - 1`,
i.e. whether a `<Divider>` follows the cell. -/
def renderNVFrom (total : Nat) (i : Nat) : List NVCell → List (NVCellView × Bool)
  | [] => []
  | c :: cs => (renderNVCell c, decide (i < total - 1)) :: renderNVFrom total (i + 1) cs

/-- `notebookData.cells.map((cell, index) => ...)` in `NotebookViewer`:
one container per cell, in order, each paired with its divider flag. -/
def renderNotebookCells (cells : List NVCell) : List (NVCellView × Bool) :=
  renderNVFrom cells.length 0 cells

/-- `interface NotebookOutput` in NotebookViewer.tsx, restricted to the
fields each `output_type` actually carries. -/
inductive NotebookOutput where
  | stream (name : String) (text : List String)
  | execResult (textPlain : List String) (execution_count : Nat)
  | error (ename : String) (evalue : String) (traceback : List String)
  deriving DecidableEq, Repr

/-- The value produced by the Python wrapper run in `executeCode`:
`result` is a (Python) exception, a non-null value, or `null`. -/
inductive ExecResult where
  | errVal (name : String) (msg : String)
  | value (s : String)
  | nullVal
  deriving DecidableEq, Repr

/-- Outcome of `pyodideRef.current.runPython(...)`: either it returns the
`(result, stdout)` pair, or the call itself throws. -/
inductive ExecOutcome where
  | ok (res : ExecResult) (stdout : String)
  | threw (err : String)
  deriving DecidableEq, Repr

/-- The component state `executeCode` touches: `cellOutputs` (a map from
cell index to outputs), `executedCells` (a set of indices) and
`editableCode` (a map from cell index to edited source). -/
structure NVState where
  cellOutputs : Nat → Option (List NotebookOutput)
  executedCells : Nat → Bool
  editableCode : Nat → Option String

/-- The `outputs` array built in the `try` branch of `executeCode`:
a `stream` output when `stdout && stdout.trim()`, followed by an `error`
output when the result is an exception, an `execute_result` when it is
non-null, and nothing when it is `null`. -/
def buildOutputs (res : ExecResult) (stdout : String) (cellIndex : Nat) :
    List NotebookOutput :=
  (if jsTrim stdout ≠ "" then [.stream "stdout" [stdout]] else []) ++
  (match res with
   | .errVal name msg => [.error name msg [msg]]
   | .value s => [.execResult [s] (cellIndex + 1)]
   | .nullVal => [])

/-- `NotebookViewer.executeCode(code, cellIndex)` as a state transformer.
When Pyodide is not loaded the function returns without touching state.
Otherwise the previous outputs of the cell are cleared and the code is run:
on a returned `(result, stdout)` pair the built outputs are stored for the
cell and the cell is added to `executedCells`; when `runPython` throws, a
single `PythonError` output is stored and `executedCells` is not written. -/
def executeCode (pyodideLoaded : Bool) (st : NVState) (cellIndex : Nat)
    (outcome : ExecOutcome) : NVState :=
  if !pyodideLoaded then st
  else
    match outcome with
    | .ok res stdout =>
        { st with
          cellOutputs := fun j =>
            if j = cellIndex then some (buildOutputs res stdout cellIndex)
            else st.cellOutputs j,
          executedCells := fun j =>
            if j = cellIndex then true else st.executedCells j }
    | .threw err =>
        { st with
          cellOutputs := fun j =>
            if j = cellIndex then
              some [.error "PythonError" err [err]]
            else st.cellOutputs j }

/-! ### LatexRenderer.tsx: `renderContent`

`text.split(/(\$\$.*?\$\$|\$.*?\$)/g)` is modelled character-by-character.
`.` does not match a newline; `.*?` is lazy, so each alternative matches
with the earliest possible closing delimiter; the first alternative is
preferred at every position; the engine takes the leftmost match.  The
split with a capturing group interleaves the unmatched stretches with the
captured matches (keeping empty stretches), exactly as `String.split`
does in JavaScript. -/

/-- Length of the shortest `.*?` middle for `\$\$.*?\$\$`: the least `k`
such that the `k`-th and `k+1`-st characters are `'$','$'` and no earlier
character is a newline. -/
def findCloseBB : List Char → Option Nat
  | '$' :: '$' :: _ => some 0
  | c :: rest => if c = '\n' then none else (findCloseBB rest).map (· + 1)
  | [] => none

/-- Length of the shortest `.*?` middle for `\$.*?\$`: the least `k` such
that the `k`-th character is `'$'` and no earlier character is a
newline. -/
def findCloseB : List Char → Option Nat
  | '$' :: _ => some 0
  | c :: rest => if c = '\n' then none else (findCloseB rest).map (· + 1)
  | [] => none

/-- Length of the regex match starting exactly at the head of the string:
the `\$\$.*?\$\$` alternative is tried first, then `\$.*?\$`. -/
def matchLen : List Char → Option Nat
  | '$' :: '$' :: rest =>
      (match findCloseBB rest with
       | some k => some (k + 4)
       | none =>
          match findCloseB ('$' :: rest) with
          | some k => some (k + 2)
          | none => none)
  | '$' :: rest => (findCloseB rest).map (· + 2)
  | _ => none

/-- Leftmost match of the delimiter regex: its start position and
length. -/
def firstMatch : List Char → Option (Nat × Nat)
  | [] => none
  | c :: rest =>
      match matchLen (c :: rest) with
      | some n => some (0, n)
      | none => (firstMatch rest).map (fun p => (p.1 + 1, p.2))

/-- Fuelled splitter: emit the stretch before the leftmost match, the
captured match, and recurse on the remainder.  Each step consumes at
least two characters, so `fuel = length` always suffices (see
`jsSplitF_fuel_irrelevant`). -/
def jsSplitF : Nat → List Char → List (List Char)
  | 0, l => [l]
  | fuel + 1, l =>
      match firstMatch l with
      | none => [l]
      | some (p, n) =>
          l.take p :: (l.drop p).take n :: jsSplitF fuel ((l.drop p).drop n)

/-- `text.split(/(\$\$.*?\$\$|\$.*?\$)/g)` on the character list of
`text`. -/
def jsSplit (l : List Char) : List (List Char) :=
  jsSplitF l.length l

/-- The three renderings a part is mapped to in `renderContent`:
a `BlockMath`, an `InlineMath`, or a plain `<span>`. -/
inductive LatexPart where
  | blockMath (latex : String)
  | inlineMath (latex : String)
  | plainText (s : String)
  deriving DecidableEq, Repr

/-- Model of `String.prototype.startsWith`: prefix test on the character
list (structural, so concrete instances compute). -/
def jsStartsWith (s pre : String) : Bool :=
  pre.toList.isPrefixOf s.toList

/-- Model of `String.prototype.endsWith`: suffix test on the character
list. -/
def jsEndsWith (s suf : String) : Bool :=
  suf.toList.reverse.isPrefixOf s.toList.reverse

/-- Model of `part.slice(a, -a)` for `a = 2` resp. `1`: the characters
from position `a` up to position `length - a` (empty when they cross). -/
def sliceDelims (part : String) (a : Nat) : String :=
  String.mk ((part.toList.drop a).take (part.toList.length - 2 * a))

/-- The classification of one part inside the `map` of `renderContent`:
block math when the part starts and ends with a double dollar (delimiters
sliced off and trimmed), else inline math when it starts and ends with a
dollar and is longer than 2, else plain text. -/
def classifyPart (part : String) : LatexPart :=
  if jsStartsWith part "$$" ∧ jsEndsWith part "$$" then
    .blockMath (jsTrim (sliceDelims part 2))
  else if jsStartsWith part "$" ∧ jsEndsWith part "$" ∧ part.length > 2 then
    .inlineMath (jsTrim (sliceDelims part 1))
  else
    .plainText part

/-- `LatexRenderer.renderContent` (the non-display-mode path): split the
content on the LaTeX delimiters and classify every part. -/
def renderContent (text : String) : List LatexPart :=
  (jsSplit text.toList).map (fun cs => classifyPart (String.mk cs))

/-! ## Concrete sample values used by witnesses and counterexamples -/

/-- A concrete learning block with a video. -/
def sampleBlock : LearningBlock :=
  ⟨1, "Vectors", "Vectors add componentwise.", some "videos/vectors.mp4"⟩

/-- A concrete, fully populated `/learn` response (its generated playground
is the non-empty notebook file named by `playground_path`). -/
def sampleResponse : LearnResponse :=
  ⟨[sampleBlock], "playground_20250913.ipynb", "Linear Algebra",
   ["vectors", "matrices"], "2025-09-13T12:00:00"⟩

/-- A second concrete response, used independently of `sampleResponse`. -/
def sampleResponse2 : LearnResponse :=
  ⟨[], "pg.ipynb", "Calculus", [], "2025-09-14T09:00:00"⟩

/-- A concrete initial `NotebookViewer` component state. -/
def initialNVState : NVState :=
  ⟨fun _ => none, fun _ => false, fun _ => none⟩

/-! ## Theorems for the claims -/

/-- C1: every request sent through `learningAPI.generateLearningModule`
has a body with exactly the fields topic and user_preferences, both
strings, and on success the function returns a response value with exactly
the fields learning_blocks (a list), playground_path (a string),
main_topic (a string), components (a list of strings) and timestamp (a
string). -/
theorem learn_request_response_schema (req : LearnRequest)
    (net : Except NetError LearnResponse) :
    (learnRequestBody req).keys = ["topic", "user_preferences"] ∧
    (learnRequestBody req).getField "topic" = some (.str req.topic) ∧
    (learnRequestBody req).getField "user_preferences" =
      some (.str req.user_preferences) ∧
    (∀ resp, generateLearningModule req net = .ok resp →
      (encodeLearnResponse resp).keys =
        ["learning_blocks", "playground_path", "main_topic", "components",
         "timestamp"] ∧
      (encodeLearnResponse resp).getField "learning_blocks" =
        some (.arr (resp.learning_blocks.map encodeLearningBlock)) ∧
      (encodeLearnResponse resp).getField "playground_path" =
        some (.str resp.playground_path) ∧
      (encodeLearnResponse resp).getField "main_topic" =
        some (.str resp.main_topic) ∧
      (∃ comps, (encodeLearnResponse resp).getField "components" =
          some (.arr comps) ∧ ∀ c ∈ comps, ∃ s, c = .str s) ∧
      (encodeLearnResponse resp).getField "timestamp" =
        some (.str resp.timestamp)) := by
  refine ⟨rfl, rfl, rfl, ?_⟩
  intro resp _
  refine ⟨rfl, rfl, rfl, rfl, ⟨resp.components.map .str, rfl, ?_⟩, rfl⟩
  intro c hc
  simp only [List.mem_map] at hc
  obtain ⟨s, -, rfl⟩ := hc
  exact ⟨s, rfl⟩

/-- Witness for C1 at a concrete request and response. -/
theorem learn_request_response_schema_witness :
    (learnRequestBody ⟨"Calculus", "visual examples"⟩).keys =
      ["topic", "user_preferences"] ∧
    (encodeLearnResponse sampleResponse).keys =
      ["learning_blocks", "playground_path", "main_topic", "components",
       "timestamp"] := by
  obtain ⟨h1, -, -, h4⟩ :=
    learn_request_response_schema ⟨"Calculus", "visual examples"⟩
      (.ok sampleResponse)
  exact ⟨h1, (h4 sampleResponse rfl).1⟩

/-- C3: every failure of the HTTP call underlying
`generateLearningModule`, whatever its cause, surfaces as the fixed
message, which the submit handler stores as the user-facing error, and
the stored learning data is left unchanged (in particular it stays
`null`). -/
theorem generate_failure_error_handling (fs : FormState) (st : AppState)
    (e : NetError) (htopic : jsTrim fs.topic ≠ "") :
    generateLearningModule ⟨jsTrim fs.topic, buildPreferences fs⟩ (.error e) =
      .error "Failed to generate learning module. Please try again." ∧
    (handleSubmit fs st (.error e)).1.error =
      some "Failed to generate learning module. Please try again." ∧
    (handleSubmit fs st (.error e)).1.learningData = st.learningData ∧
    (st.learningData = none →
      (handleSubmit fs st (.error e)).1.learningData = none) := by
  refine ⟨rfl, ?_, ?_, ?_⟩ <;>
    simp [handleSubmit, if_neg htopic, generateLearningModule]

/-- Witness for C3 at a concrete form state and failure. -/
theorem generate_failure_error_handling_witness :
    (handleSubmit ⟨"Calculus", "", []⟩ ⟨none, true, none⟩
        (.error .network)).1.error =
      some "Failed to generate learning module. Please try again." ∧
    (handleSubmit ⟨"Calculus", "", []⟩ ⟨none, true, none⟩
        (.error .network)).1.learningData = none := by
  obtain ⟨-, h2, -, h4⟩ :=
    generate_failure_error_handling ⟨"Calculus", "", []⟩ ⟨none, true, none⟩
      .network (by decide)
  exact ⟨h2, h4 rfl⟩

/-- C4: `learningAPI.checkHealth` returns `true` exactly when the request
completes with HTTP status 200, and `false` in every other case; being a
total function into `Bool`, it never throws. -/
theorem checkHealth_status_characterization (o : HttpOutcome) :
    checkHealth o = true ↔ o = .completed 200 := by
  cases o with
  | completed s =>
      simp only [checkHealth, axiosResolves, HttpOutcome.completed.injEq]
      by_cases hb : (200 ≤ s ∧ s < 300)
      · simp [hb]
      · simp [hb]
        omega
  | failed => simp [checkHealth]

/-- Witness for C4 at a concrete outcome. -/
theorem checkHealth_status_characterization_witness :
    checkHealth (.completed 200) = true := by
  exact (checkHealth_status_characterization (.completed 200)).mpr rfl

/-- C5: `getVisualizationUrl` and `getNotebookUrl` are the base URL
concatenated with the route prefix and the path, and the `<video>` element
rendered by `VideoPlayer` for a playing, non-empty path uses exactly
`getVisualizationUrl` of that path as its `src`. -/
theorem api_url_concatenation (p f title : String) (hp : p ≠ "") :
    getVisualizationUrl p = API_BASE_URL ++ "/visualization/" ++ p ∧
    getNotebookUrl f = API_BASE_URL ++ "/notebook/" ++ f ∧
    renderVideoPlayer (some p) title true =
      .videoElem (getVisualizationUrl p) title := by
  refine ⟨rfl, rfl, ?_⟩
  simp [renderVideoPlayer, jsFalsyStr, hp]

/-- Witness for C5 at a concrete path. -/
theorem api_url_concatenation_witness :
    getVisualizationUrl "videos/vectors.mp4" =
      "https://hophacks-learnwiz-backend.sliplane.app/visualization/videos/vectors.mp4" ∧
    renderVideoPlayer (some "videos/vectors.mp4") "Vectors" true =
      .videoElem (getVisualizationUrl "videos/vectors.mp4") "Vectors" := by
  obtain ⟨h1, -, h3⟩ :=
    api_url_concatenation "videos/vectors.mp4" "nb.ipynb" "Vectors"
      (by decide)
  exact ⟨h1, h3⟩

/-- C6: a learning block carries its video reference as string-or-null,
and `VideoPlayer` renders the "No visualization available for this topic"
placeholder — no video element, no URL — exactly when the path is null or
otherwise falsy (the empty string). -/
theorem video_optional_placeholder :
    (∀ (vp : Option String) (title : String) (playing : Bool),
      renderVideoPlayer vp title playing = .noVisualization ↔
        (vp = none ∨ vp = some "")) ∧
    (∀ b : LearningBlock,
      (encodeLearningBlock b).getField "visualization_path" =
        some (match b.visualization_path with
              | some s => .str s
              | none => .null)) := by
  constructor
  · intro vp title playing
    cases vp with
    | none => simp [renderVideoPlayer, jsFalsyStr]
    | some s =>
        by_cases hs : s = ""
        · subst hs; simp [renderVideoPlayer, jsFalsyStr]
        · cases playing <;> simp [renderVideoPlayer, jsFalsyStr, hs]
  · intro b
    rfl

/-- Witness for C6 at concrete paths. -/
theorem video_optional_placeholder_witness :
    renderVideoPlayer none "Vectors" false = .noVisualization ∧
    renderVideoPlayer (some "") "Vectors" false = .noVisualization ∧
    renderVideoPlayer (some "videos/v.mp4") "Vectors" false ≠
      .noVisualization := by
  obtain ⟨h, -⟩ := video_optional_placeholder
  refine ⟨(h none "Vectors" false).mpr (Or.inl rfl),
          (h (some "") "Vectors" false).mpr (Or.inr rfl), ?_⟩
  intro hc
  rcases (h (some "videos/v.mp4") "Vectors" false).mp hc with h1 | h1 <;>
    simp at h1

/-- Helper for C7: length of the rendered cell list. -/
theorem renderNVFrom_length (total k : Nat) (l : List NVCell) :
    (renderNVFrom total k l).length = l.length := by
  induction l generalizing k with
  | nil => rfl
  | cons c cs ih => simp [renderNVFrom, ih]

/-- Helper for C7: the i-th rendered cell. -/
theorem renderNVFrom_getElem (total k : Nat) (l : List NVCell) (i : Nat) :
    (renderNVFrom total k l)[i]? =
      (l[i]?).map (fun c => (renderNVCell c, decide (k + i < total - 1))) := by
  induction l generalizing k i with
  | nil => simp [renderNVFrom]
  | cons c cs ih =>
      cases i with
      | zero => simp [renderNVFrom]
      | succ n =>
          have hk : k + 1 + n = k + (n + 1) := by omega
          simp [renderNVFrom, ih (k + 1) n, hk]

/-- C7: `NotebookViewer` renders exactly one container per cell, in order;
a cell is rendered as markdown exactly when its cell_type is markdown and
as a code cell otherwise; the divider flag is set exactly on every cell
except the last. -/
theorem notebook_cells_rendering (cells : List NVCell) :
    (renderNotebookCells cells).length = cells.length ∧
    (∀ i, (renderNotebookCells cells)[i]? =
      (cells[i]?).map
        (fun c => (renderNVCell c, decide (i < cells.length - 1)))) ∧
    (∀ c : NVCell,
      (∃ content, renderNVCell c = .markdownBox content) ↔
        c.cell_type = "markdown") := by
  refine ⟨renderNVFrom_length _ _ _, ?_, ?_⟩
  · intro i
    have := renderNVFrom_getElem cells.length 0 cells i
    simpa using this
  · intro c
    by_cases h : c.cell_type = "markdown" <;> simp [renderNVCell, h]

/-- Witness for C7 at a concrete two-cell notebook. -/
theorem notebook_cells_rendering_witness :
    (renderNotebookCells
        [⟨"markdown", ["# Intro"], none⟩, ⟨"code", ["print(1)"], none⟩]) =
      [(.markdownBox "# Intro", true), (.codeCell "print(1)", false)] := by
  have h := notebook_cells_rendering
    [⟨"markdown", ["# Intro"], none⟩, ⟨"code", ["print(1)"], none⟩]
  obtain ⟨hlen, hget, -⟩ := h
  have h0 := hget 0
  have h1 := hget 1
  simp [renderNVCell, String.join] at h0 h1
  refine List.ext_getElem? ?_
  intro i
  match i with
  | 0 => simpa using h0
  | 1 => simpa using h1
  | (n + 2) =>
      have : (renderNotebookCells
        [⟨"markdown", ["# Intro"], none⟩, ⟨"code", ["print(1)"], none⟩]).length = 2 := hlen
      simp [List.getElem?_eq_none, this]

/-- Helper for C9: the preferences sent are the joined chips when at least
one chip is selected, the free-text field otherwise. -/
theorem buildPreferences_eq (fs : FormState) :
    buildPreferences fs =
      if fs.selectedPreferences ≠ [] then
        String.intercalate ", " fs.selectedPreferences
      else fs.userPreferences := by
  unfold buildPreferences
  cases h : fs.selectedPreferences <;> simp [h]

/-- C9: the submit handler issues no request for a blank topic (setting
the validation error instead); for a non-blank topic the request carries
the trimmed topic and the chip-joined (respectively free-text)
preferences. -/
theorem topic_form_submit_guard (fs : FormState) (st : AppState)
    (net : Except NetError LearnResponse) :
    (jsTrim fs.topic = "" →
      (handleSubmit fs st net).2 = none ∧
      (handleSubmit fs st net).1.error = some "Please enter a topic") ∧
    (jsTrim fs.topic ≠ "" →
      (handleSubmit fs st net).2 =
        some ⟨jsTrim fs.topic,
          if fs.selectedPreferences ≠ [] then
            String.intercalate ", " fs.selectedPreferences
          else fs.userPreferences⟩) := by
  constructor
  · intro h
    simp [handleSubmit, h]
  · intro h
    rw [← buildPreferences_eq]
    cases net with
    | ok r => simp [handleSubmit, if_neg h, generateLearningModule]
    | error e => simp [handleSubmit, if_neg h, generateLearningModule]

/-- Witness for C9: a whitespace-only topic is blocked, a non-blank topic
is trimmed and sent with the selected chips joined. -/
theorem topic_form_submit_guard_witness :
    (handleSubmit ⟨"   ", "free text", []⟩ ⟨none, false, none⟩
        (.error .network)).2 = none ∧
    (handleSubmit ⟨" Calculus ", "free text", ["visual", "beginner"]⟩
        ⟨none, false, none⟩ (.error .network)).2 =
      some ⟨"Calculus", "visual, beginner"⟩ := by
  obtain ⟨hblank, -⟩ :=
    topic_form_submit_guard ⟨"   ", "free text", []⟩ ⟨none, false, none⟩
      (.error .network)
  obtain ⟨-, hsend⟩ :=
    topic_form_submit_guard ⟨" Calculus ", "free text", ["visual", "beginner"]⟩
      ⟨none, false, none⟩ (.error .network)
  refine ⟨(hblank (by decide)).1, ?_⟩
  rw [hsend (by decide)]
  rfl

/-- C10: executing a code cell modifies only that cell: outputs of the
cell are replaced (and on a returned result the cell joins the executed
set), every other index keeps its outputs, executed flag and editable
code, and a thrown execution error stores a single error output without
touching the executed set. -/
theorem executeCode_cell_isolation (st : NVState) (i : Nat)
    (outcome : ExecOutcome) :
    (∀ j, j ≠ i →
      (executeCode true st i outcome).cellOutputs j = st.cellOutputs j ∧
      (executeCode true st i outcome).executedCells j = st.executedCells j ∧
      (executeCode true st i outcome).editableCode j = st.editableCode j) ∧
    (executeCode true st i outcome).editableCode = st.editableCode ∧
    (∀ res stdout, outcome = .ok res stdout →
      (executeCode true st i outcome).cellOutputs i =
        some (buildOutputs res stdout i) ∧
      (executeCode true st i outcome).executedCells i = true) ∧
    (∀ err, outcome = .threw err →
      (executeCode true st i outcome).cellOutputs i =
        some [.error "PythonError" err [err]] ∧
      (executeCode true st i outcome).executedCells = st.executedCells) := by
  refine ⟨?_, ?_, ?_, ?_⟩
  · intro j hj
    cases outcome <;> simp [executeCode, hj]
  · cases outcome <;> simp [executeCode]
  · rintro res stdout rfl
    simp [executeCode]
  · rintro err rfl
    simp [executeCode]

/-- Witness for C10 at a concrete state: a throw in cell 0 leaves cell 1
untouched and the executed set unchanged. -/
theorem executeCode_cell_isolation_witness :
    (executeCode true initialNVState 0 (.threw "boom")).cellOutputs 1 =
      none ∧
    (executeCode true initialNVState 0 (.threw "boom")).cellOutputs 0 =
      some [.error "PythonError" "boom" ["boom"]] ∧
    (executeCode true initialNVState 0 (.threw "boom")).executedCells =
      initialNVState.executedCells := by
  obtain ⟨hframe, -, -, hthrew⟩ :=
    executeCode_cell_isolation initialNVState 0 (.threw "boom")
  exact ⟨(hframe 1 (by decide)).1, (hthrew "boom" rfl).1,
         (hthrew "boom" rfl).2⟩

/-- C2 counterexample: the response schema has no `playground` field —
even for a concrete response describing a non-empty generated playground
(`sampleResponse`, whose `playground_path` names the generated notebook),
the read `data.playground` yields `undefined` and
`renderNotebookContent` renders the "No playground content available"
fallback. -/
theorem thebe_playground_missing_counterexample :
    (encodeLearnResponse sampleResponse).getField "playground" = none ∧
    renderNotebookContent (fun _ => none)
        (some (encodeLearnResponse sampleResponse)) =
      .noPlaygroundFallback := by
  exact ⟨rfl, rfl⟩

/-- C2 (amended): the field `ThebeNotebook.renderNotebookContent` reads,
`data.playground`, is not a field of the `LearnResponse` schema (which
carries `playground_path` instead), so for every schema-conforming
response — whatever `JSON.parse` would do — the renderer shows the
"No playground content available" fallback. -/
theorem thebe_playground_always_fallback (parse : String → Option Json)
    (r : LearnResponse) :
    (encodeLearnResponse r).getField "playground" = none ∧
    renderNotebookContent parse (some (encodeLearnResponse r)) =
      .noPlaygroundFallback := by
  exact ⟨rfl, rfl⟩

/-- Witness for the amended C2 at a second concrete response. -/
theorem thebe_playground_always_fallback_witness :
    renderNotebookContent (fun s => some (.str s))
        (some (encodeLearnResponse sampleResponse2)) =
      .noPlaygroundFallback := by
  exact (thebe_playground_always_fallback (fun s => some (.str s))
    sampleResponse2).2

/-- Helper for C8: the fuelled splitter is content-preserving for every
fuel value. -/
theorem jsSplitF_join (fuel : Nat) :
    ∀ l : List Char, List.flatten (jsSplitF fuel l) = l := by
  induction fuel with
  | zero => intro l; simp [jsSplitF]
  | succ f ih =>
      intro l
      unfold jsSplitF
      cases h : firstMatch l with
      | none => simp
      | some pn =>
          obtain ⟨p, n⟩ := pn
          simp only [List.flatten_cons, ih]
          rw [List.take_append_drop, List.take_append_drop]

/-- Helper for C8: a successful double-dollar close is within the
string. -/
theorem findCloseBB_bound :
    ∀ (l : List Char) (k : Nat), findCloseBB l = some k → k + 2 ≤ l.length := by
  intro l
  induction l with
  | nil => intro k h; simp [findCloseBB] at h
  | cons c rest ih =>
      intro k h
      unfold findCloseBB at h
      split at h
      · rename_i x tail heq
        injection heq with hc hrest
        injection h with hk
        subst hrest
        simp [List.length_cons]
        omega
      · rename_i x1 c' rest' hno heq
        injection heq with hc hrest
        subst hrest
        split at h
        · simp at h
        · rw [Option.map_eq_some'] at h
          obtain ⟨k', hk', hks⟩ := h
          have := ih k' hk'
          simp [List.length_cons]
          omega
      · rename_i x heq
        simp at heq

/-- Helper for C8: a successful single-dollar close is within the
string. -/
theorem findCloseB_bound :
    ∀ (l : List Char) (k : Nat), findCloseB l = some k → k + 1 ≤ l.length := by
  intro l
  induction l with
  | nil => intro k h; simp [findCloseB] at h
  | cons c rest ih =>
      intro k h
      unfold findCloseB at h
      split at h
      · injection h with hk
        simp [List.length_cons]
        omega
      · rename_i x1 c' rest' hno heq
        injection heq with hc hrest
        subst hrest
        split at h
        · simp at h
        · rw [Option.map_eq_some'] at h
          obtain ⟨k', hk', hks⟩ := h
          have := ih k' hk'
          simp [List.length_cons]
          omega
      · rename_i x heq
        simp at heq

/-- Helper for C8: a regex match at the head of the string has length at
least 2 and at most the string length. -/
theorem matchLen_bound :
    ∀ (l : List Char) (n : Nat), matchLen l = some n → 2 ≤ n ∧ n ≤ l.length := by
  intro l n h
  unfold matchLen at h
  split at h
  · rename_i x rest
    split at h
    · rename_i x2 k hbb
      injection h with hn
      have := findCloseBB_bound _ _ hbb
      simp only [List.length_cons]
      omega
    · rename_i x2 hbbnone
      split at h
      · rename_i x3 k hb
        injection h with hn
        have := findCloseB_bound _ _ hb
        simp only [List.length_cons] at this ⊢
        omega
      · simp at h
  · rename_i x1 rest hno
    rw [Option.map_eq_some'] at h
    obtain ⟨k, hk, hn⟩ := h
    have := findCloseB_bound _ _ hk
    simp only [List.length_cons]
    omega
  · simp at h

/-- Helper for C8: the leftmost regex match lies within the string and has
length at least 2. -/
theorem firstMatch_bound (l : List Char) :
    ∀ (p n : Nat), firstMatch l = some (p, n) → 2 ≤ n ∧ p + n ≤ l.length := by
  induction l with
  | nil => intro p n h; simp [firstMatch] at h
  | cons c rest ih =>
      intro p n h
      unfold firstMatch at h
      split at h
      · rename_i x k hm
        injection h with hpn
        injection hpn with hp hn
        subst hp hn
        have := matchLen_bound _ _ hm
        omega
      · rename_i x hnone
        rw [Option.map_eq_some'] at h
        obtain ⟨⟨pp, nn⟩, hp', hpn⟩ := h
        injection hpn with hp hn
        subst hp hn
        have := ih pp nn hp'
        simp only [List.length_cons]
        omega

/-- Helper for C8: any fuel at least the string length yields the same
split, so `jsSplit`, which uses fuel equal to the length, never runs
out. -/
theorem jsSplitF_fuel_irrelevant :
    ∀ (f g : Nat) (l : List Char), l.length ≤ f → l.length ≤ g →
      jsSplitF f l = jsSplitF g l := by
  intro f
  induction f using Nat.strong_induction_on with
  | _ f ihf =>
    intro g l hf hg
    match f, g with
    | 0, 0 => rfl
    | 0, g + 1 =>
        have : l = [] := List.length_eq_zero.mp (Nat.le_zero.mp hf)
        subst this
        simp [jsSplitF, firstMatch]
    | f + 1, 0 =>
        have : l = [] := List.length_eq_zero.mp (Nat.le_zero.mp hg)
        subst this
        simp [jsSplitF, firstMatch]
    | f + 1, g + 1 =>
        unfold jsSplitF
        cases h : firstMatch l with
        | none => rfl
        | some pn =>
            obtain ⟨p, n⟩ := pn
            have hb := firstMatch_bound l p n h
            have hlen : ((l.drop p).drop n).length = l.length - p - n := by
              simp [List.length_drop]
              omega
            have hrec := ihf f (by omega) g ((l.drop p).drop n)
              (by omega) (by omega)
            simp only [hrec]

/-- C8: the delimiter split of `LatexRenderer.renderContent` is
content-preserving — the parts concatenate back to the input — and every
part is classified into exactly one of the three renderings: block math
when it starts and ends with a double dollar, else inline math when it
starts and ends with a dollar and is longer than two characters, and
plain text otherwise. -/
theorem latex_split_content_preserving (s : String) :
    List.flatten (jsSplit s.toList) = s.toList ∧
    String.mk (List.flatten (jsSplit s.toList)) = s ∧
    renderContent s =
      (jsSplit s.toList).map (fun cs => classifyPart (String.mk cs)) ∧
    (∀ p : String,
      ((classifyPart p = .blockMath (jsTrim (sliceDelims p 2))) ↔
        (jsStartsWith p "$$" ∧ jsEndsWith p "$$")) ∧
      ((classifyPart p = .inlineMath (jsTrim (sliceDelims p 1))) ↔
        (¬(jsStartsWith p "$$" ∧ jsEndsWith p "$$") ∧
         (jsStartsWith p "$" ∧ jsEndsWith p "$" ∧ p.length > 2))) ∧
      ((classifyPart p = .plainText p) ↔
        (¬(jsStartsWith p "$$" ∧ jsEndsWith p "$$") ∧
         ¬(jsStartsWith p "$" ∧ jsEndsWith p "$" ∧ p.length > 2)))) := by
  refine ⟨jsSplitF_join _ _, ?_, rfl, ?_⟩
  · have h := jsSplitF_join s.toList.length s.toList
    rw [show jsSplit s.toList = jsSplitF s.toList.length s.toList from rfl, h]
    rfl
  · intro p
    by_cases h1 : (jsStartsWith p "$$" ∧ jsEndsWith p "$$") <;>
      by_cases h2 : (jsStartsWith p "$" ∧ jsEndsWith p "$" ∧ p.length > 2) <;>
        simp [classifyPart, h1, h2]

/-- Witness for C8 at a concrete mixed input. -/
theorem latex_split_content_preserving_witness :
    String.mk (List.flatten (jsSplit "a $x$ b $$y$$ c".toList)) =
      "a $x$ b $$y$$ c" ∧
    classifyPart "$x$" = .inlineMath "x" ∧
    classifyPart "$$y$$" = .blockMath "y" ∧
    classifyPart "a " = .plainText "a " := by
  obtain ⟨-, hmk, -, -⟩ := latex_split_content_preserving "a $x$ b $$y$$ c"
  obtain ⟨-, -, -, hcls⟩ := latex_split_content_preserving "$x$"
  refine ⟨hmk, ?_, ?_, ?_⟩
  · have h := ((hcls "$x$").2.1).mpr (by decide)
    rw [h]
    rfl
  · have h := ((hcls "$$y$$").1).mpr (by decide)
    rw [h]
    rfl
  · exact ((hcls "a ").2.2).mpr (by decide)

end HopHacks
